import Mathlib

/-!
Shallow embedding of the SQS batch sender (`sqs_batch_send.py`, class `SQSBatcher`)
and proofs about its buffering, flushing, retry/backoff and callback behaviour.

Modelling conventions:
* Python `int` counters become `Nat` (they are never negative on these paths);
  the constructor arguments, which a caller may pass negative, are modelled as
  `Int` where validation is the question.
* `backoff_factor` is a Python float multiplied by powers of two; those products
  are exact in binary floating point, so it is modelled as `ℚ`.
* The SQS client is the external transport.  Its behaviour during one flush is a
  script `Nat → AttemptBehavior` giving, for each 1-based attempt index, either
  a raised transport error or a structured response (the list of `Id`s reported
  in the response's `Failed` field).  The script also records whether the
  user-supplied `on_success` callback would raise if invoked on that attempt.
* Side effects of `flush` (transport calls, callback invocations, backoff
  sleeps, a propagated exception) are returned in a `FlushLog`; each loop
  iteration contributes one `AttemptRecord`.
* Auto-generated uuid message ids are modelled as a caller-provided opaque
  string argument; nothing proved here depends on their generation.
* The open `**sqs_fields` pass-through of `add_message` is not modelled: it is
  stored and sent verbatim and no claim mentions it.
-/

/-- Constant `MIN_BATCH_COUNT` of the source. -/
def MIN_BATCH_COUNT : Int := 1

/-- Constant `MAX_BATCH_COUNT` of the source. -/
def MAX_BATCH_COUNT : Int := 10

/-- Constant `MIN_BATCH_SIZE` of the source. -/
def MIN_BATCH_SIZE : Int := 1

/-- Constant `MAX_BATCH_SIZE` of the source. -/
def MAX_BATCH_SIZE : Int := 1048576

/-- Constant `APPROX_AWS_METADATA_OVERHEAD` of the source. -/
def APPROX_AWS_METADATA_OVERHEAD : Nat := 50

/-- The payload of one message attribute: exactly the cases the `elif` chain of
`_estimate_message_size` distinguishes (`StringValue`, `BinaryValue`,
`StringListValues`, `BinaryListValues`, or none of those keys).  Binary data is
a list of bytes; only its length is ever used. -/
inductive AttrValue where
  | stringValue (s : String)
  | binaryValue (bytes : List Nat)
  | stringListValues (vs : List String)
  | binaryListValues (vs : List (List Nat))
  | noValue
deriving DecidableEq

/-- One message attribute: its `DataType` label (the empty string when the key
is absent, matching `attr.get("DataType", "")`) and its payload. -/
structure MsgAttr where
  dataType : String
  value : AttrValue
deriving DecidableEq

/-- Byte count contributed by an attribute's payload in
`_estimate_message_size`. -/
def attrValueSize : AttrValue → Nat
  | .stringValue s => s.utf8ByteSize
  | .binaryValue bytes => bytes.length
  | .stringListValues vs => (vs.map String.utf8ByteSize).sum
  | .binaryListValues vs => (vs.map List.length).sum
  | .noValue => 0

/-- `SQSBatcher._estimate_message_size`: UTF-8 byte length of the body plus,
per attribute, name length, `DataType` length, payload length and the fixed
overhead constant.  Attributes are an ordered association list (Python dicts
preserve insertion order). -/
def estimate_message_size (body : String) (attributes : List (String × MsgAttr)) : Nat :=
  body.utf8ByteSize +
    (attributes.map (fun p =>
      p.1.utf8ByteSize + p.2.dataType.utf8ByteSize + attrValueSize p.2.value +
        APPROX_AWS_METADATA_OVERHEAD)).sum

/-- One batch entry as built by `add_message`: the dict
`{"Id": ..., "MessageBody": ..., "MessageAttributes": ...}`. -/
structure Entry where
  id : String
  body : String
  attributes : List (String × MsgAttr)
deriving DecidableEq

/-- The estimated size of a stored entry, `estimate(item)` of the spec. -/
def entrySize (e : Entry) : Nat :=
  estimate_message_size e.body e.attributes

/-- The configuration fields of `SQSBatcher` relevant to buffering and
flushing.  `on_success = true` models a configured callback. -/
structure Config where
  max_batch_count : Nat
  max_batch_size_bytes : Nat
  max_retries : Nat
  backoff_factor : ℚ
  on_success : Bool
deriving DecidableEq

/-- The mutable buffer state: `self._batch` and `self._batch_size`. -/
structure BufferState where
  batch : List Entry
  batch_size : Nat
deriving DecidableEq

/-- `SQSBatcher.__init__` bounds checking, over the raw (possibly negative)
constructor arguments: `true` means construction succeeds.  The source only
validates `max_batch_count` and `max_batch_size_bytes`; `max_retries` and
`backoff_factor` are stored without any check. -/
def init_validate (max_batch_count max_batch_size_bytes max_retries : Int)
    (backoff_factor : ℚ) : Bool :=
  decide (MIN_BATCH_COUNT ≤ max_batch_count ∧ max_batch_count ≤ MAX_BATCH_COUNT) &&
    decide (MIN_BATCH_SIZE ≤ max_batch_size_bytes ∧ max_batch_size_bytes ≤ MAX_BATCH_SIZE)

/-- Transport behaviour on one attempt of the flush loop:
`err` models `send_message_batch` raising; `ok failedIds cbRaises` models a
structured response whose `Failed` field lists `failedIds`, with `cbRaises`
telling whether the `on_success` callback raises if it gets invoked on this
attempt. -/
inductive AttemptBehavior where
  | err
  | ok (failedIds : List String) (cbRaises : Bool)
deriving DecidableEq

/-- Observable record of one iteration of the flush loop: the 1-based attempt
index, the entries handed to `send_message_batch`, the id list passed to
`on_success` (`none` when the callback was not invoked), and the duration of
the `time.sleep` that followed the attempt (`none` when no sleep ran). -/
structure AttemptRecord where
  idx : Nat
  sent : List Entry
  callbackCalled : Option (List String)
  sleptAfter : Option ℚ
deriving DecidableEq

/-- Log of one `flush` call: the attempt records in order and whether `flush`
propagated an exception to its caller. -/
structure FlushLog where
  attempts : List AttemptRecord
  raised : Bool
deriving DecidableEq

/-- Ids of the entries of a batch that a structured response did not report
failed: `[e["Id"] for e in entries if e["Id"] not in failed_ids]`. -/
def attemptSucceeded (entries : List Entry) (failedIds : List String) : List String :=
  (entries.filter (fun e => e.id ∉ failedIds)).map Entry.id

/-- The entries of a batch that a structured response reported failed:
`[e for e in entries if e["Id"] in failed_ids]`. -/
def attemptRemaining (entries : List Entry) (failedIds : List String) : List Entry :=
  entries.filter (fun e => e.id ∈ failedIds)

/-- The `for attempt in range(1, self.max_retries + 2)` loop body of
`SQSBatcher.flush`, acting on the working list `entries`.  Each case follows
the source line by line:
* transport raises: re-raise on the last attempt, otherwise continue with the
  same entries and no sleep (the `else` clause of the `try` is skipped);
* callback invoked and raises: same exception path, entries not yet narrowed;
* response with empty `Failed`: `break`, again skipping the `else` clause;
* otherwise narrow `entries` to the failed ids, and in the `else` clause sleep
  `backoff_factor * 2 ** (attempt - 1)` when the narrowed list is non-empty. -/
def flushGo (cfg : Config) (script : Nat → AttemptBehavior) :
    List Nat → List Entry → FlushLog
  | [], _ => ⟨[], false⟩
  | a :: rest, entries =>
    match script a with
    | .err =>
      if a = cfg.max_retries + 1 then
        ⟨[⟨a, entries, none, none⟩], true⟩
      else
        let r := flushGo cfg script rest entries
        ⟨⟨a, entries, none, none⟩ :: r.attempts, r.raised⟩
    | .ok failedIds cbRaises =>
      let successful := attemptSucceeded entries failedIds
      let cbInvoked := cfg.on_success && !successful.isEmpty
      let called : Option (List String) := if cbInvoked then some successful else none
      if cbInvoked && cbRaises then
        if a = cfg.max_retries + 1 then
          ⟨[⟨a, entries, called, none⟩], true⟩
        else
          let r := flushGo cfg script rest entries
          ⟨⟨a, entries, called, none⟩ :: r.attempts, r.raised⟩
      else if failedIds.isEmpty then
        ⟨[⟨a, entries, called, none⟩], false⟩
      else
        let entries2 := attemptRemaining entries failedIds
        let slept : Option ℚ :=
          if entries2.isEmpty then none else some (cfg.backoff_factor * 2 ^ (a - 1))
        let r := flushGo cfg script rest entries2
        ⟨⟨a, entries, called, slept⟩ :: r.attempts, r.raised⟩

/-- `SQSBatcher.flush`: no-op on an empty batch; otherwise run the retry loop
on a copy of the batch.  `self._batch.clear()` and `self._batch_size = 0` run
only when the loop finishes without re-raising — a propagated exception leaves
the buffer state untouched, since there is no `finally` in the source. -/
def flush (cfg : Config) (script : Nat → AttemptBehavior) (st : BufferState) :
    BufferState × FlushLog :=
  if st.batch.isEmpty then (st, ⟨[], false⟩)
  else
    let log := flushGo cfg script (List.range' 1 (cfg.max_retries + 1)) st.batch
    if log.raised then (st, log) else (⟨[], 0⟩, log)

/-- Errors `add_message` can propagate: its own `ValueError` for more than 10
attributes, or any exception propagated out of the flush it triggers. -/
inductive AddError where
  | tooManyAttributes
  | flushRaised
deriving DecidableEq

deriving instance DecidableEq for Except

/-- `SQSBatcher.add_message`: validate the attribute count, estimate the size,
flush first when the count or size threshold would be crossed, then append the
new entry and add its estimate to the running size.  The returned list holds
the log of the triggered flush, if any.  When the triggered flush raises, the
exception propagates and the entry is never appended. -/
def add_message (cfg : Config) (script : Nat → AttemptBehavior) (st : BufferState)
    (body : String) (attributes : List (String × MsgAttr)) (message_id : String) :
    Except AddError (BufferState × List FlushLog) :=
  if attributes.length > 10 then .error .tooManyAttributes
  else
    let msg_size := estimate_message_size body attributes
    if st.batch.length ≥ cfg.max_batch_count ∨
        st.batch_size + msg_size > cfg.max_batch_size_bytes then
      let fr := flush cfg script st
      if fr.2.raised then .error .flushRaised
      else
        .ok (⟨fr.1.batch ++ [⟨message_id, body, attributes⟩],
              fr.1.batch_size + msg_size⟩, [fr.2])
    else
      .ok (⟨st.batch ++ [⟨message_id, body, attributes⟩],
            st.batch_size + msg_size⟩, [])

/-- `SQSBatcher.__exit__`: flush when `self._batch` is non-empty, then return
the literal `False` (the last component), i.e. never suppress the in-scope
exception.  The middle component lists the logs of the flush invocations made
at scope exit (one log per invocation); when that flush raises, its log has
`raised = true` and the exception propagates from the scope exit. -/
def exitBatcher (cfg : Config) (script : Nat → AttemptBehavior) (st : BufferState) :
    BufferState × List FlushLog × Bool :=
  if st.batch.isEmpty then (st, [], false)
  else
    let fr := flush cfg script st
    (fr.1, [fr.2], false)

/-- States reachable from a freshly constructed batcher (empty batch, zero
size) by any sequence of `add_message` calls that return normally and `flush`
calls (normal or raising), each against an arbitrary transport script. -/
inductive Reachable (cfg : Config) : BufferState → Prop where
  | init : Reachable cfg ⟨[], 0⟩
  | step_add (st : BufferState) (script : Nat → AttemptBehavior) (body : String)
      (attributes : List (String × MsgAttr)) (message_id : String)
      (st' : BufferState) (logs : List FlushLog) :
      Reachable cfg st →
      add_message cfg script st body attributes message_id = .ok (st', logs) →
      Reachable cfg st'
  | step_flush (st : BufferState) (script : Nat → AttemptBehavior) :
      Reachable cfg st → Reachable cfg (flush cfg script st).1

/-- Spec-side description (from the spec's words) of when `on_success` is
invoked on one attempt and with which ids: exactly the ids of the sent entries
that the structured response did not report failed, invoked iff the callback is
configured and that list is non-empty; never invoked on an attempt whose
transport call raised. -/
def specCallbackOnAttempt (cfg : Config) (beh : AttemptBehavior) (sent : List Entry) :
    Option (List String) :=
  match beh with
  | .err => none
  | .ok failedIds _ =>
    let succeeded := attemptSucceeded sent failedIds
    if cfg.on_success && !succeeded.isEmpty then some succeeded else none

/-- Spec-side description (from the spec's words, amended) of the backoff pause
following one attempt: a pause of `backoff_factor * 2 ^ (idx - 1)` occurs
exactly when the attempt ended with a structured response (neither the
transport nor an invoked callback raised) that leaves a non-empty failed
subset of the sent entries; attempts that raise are followed immediately. -/
def specSleepOnAttempt (cfg : Config) (beh : AttemptBehavior) (sent : List Entry)
    (idx : Nat) : Option ℚ :=
  match beh with
  | .err => none
  | .ok failedIds cbRaises =>
    let succeeded := attemptSucceeded sent failedIds
    if cfg.on_success && !succeeded.isEmpty && cbRaises then none
    else if failedIds.isEmpty then none
    else if (attemptRemaining sent failedIds).isEmpty then none
    else some (cfg.backoff_factor * 2 ^ (idx - 1))

/-- An attempt behaviour that is a structured response whose callback does not
raise (the setting of claims about transport responses only). -/
def structuredNoRaise : AttemptBehavior → Bool
  | .err => false
  | .ok _ cbRaises => !cbRaises

theorem flushGo_attempts_length_le (cfg : Config) (script : Nat → AttemptBehavior) :
    ∀ (l : List Nat) (entries : List Entry),
      (flushGo cfg script l entries).attempts.length ≤ l.length := by
  intro l
  induction l with
  | nil => intro entries; simp [flushGo]
  | cons a rest ih =>
    intro entries
    cases hb : script a with
    | err =>
      simp only [flushGo, hb]
      split
      · simp
      · simpa using Nat.succ_le_succ (ih entries)
    | ok failedIds cbRaises =>
      simp only [flushGo, hb]
      split
      · split
        · simp
        · simpa using Nat.succ_le_succ (ih entries)
      · split
        · simp
        · simpa using Nat.succ_le_succ (ih _)

theorem flushGo_head_sent (cfg : Config) (script : Nat → AttemptBehavior)
    (a : Nat) (rest : List Nat) (entries : List Entry) :
    ((flushGo cfg script (a :: rest) entries).attempts.head?).map AttemptRecord.sent =
      some entries := by
  cases hb : script a with
  | err =>
    simp only [flushGo, hb]
    split <;> simp
  | ok failedIds cbRaises =>
    simp only [flushGo, hb]
    split
    · split <;> simp
    · split <;> simp

theorem flushGo_not_raised_of_structured (cfg : Config) (script : Nat → AttemptBehavior)
    (hs : ∀ a, structuredNoRaise (script a) = true) :
    ∀ (l : List Nat) (entries : List Entry),
      (flushGo cfg script l entries).raised = false := by
  intro l
  induction l with
  | nil => intro entries; simp [flushGo]
  | cons a rest ih =>
    intro entries
    cases hb : script a with
    | err => exact absurd (hs a) (by simp [structuredNoRaise, hb])
    | ok failedIds cbRaises =>
      have hcb : cbRaises = false := by
        have := hs a
        simpa [structuredNoRaise, hb] using this
      simp only [flushGo, hb, hcb, Bool.and_false, Bool.false_eq_true, if_false]
      split
      · simp
      · simpa using ih _

theorem flushGo_rec_spec (cfg : Config) (script : Nat → AttemptBehavior) :
    ∀ (l : List Nat) (entries : List Entry) (rec : AttemptRecord),
      rec ∈ (flushGo cfg script l entries).attempts →
        rec.callbackCalled = specCallbackOnAttempt cfg (script rec.idx) rec.sent ∧
          rec.sleptAfter = specSleepOnAttempt cfg (script rec.idx) rec.sent rec.idx := by
  intro l
  induction l with
  | nil => intro entries rec h; simp [flushGo] at h
  | cons a rest ih =>
    intro entries rec hrec
    cases hb : script a with
    | err =>
      simp only [flushGo, hb] at hrec
      split at hrec
      · simp only [List.mem_singleton] at hrec
        subst hrec
        simp [specCallbackOnAttempt, specSleepOnAttempt, hb]
      · rcases List.mem_cons.mp hrec with h | h
        · subst h
          simp [specCallbackOnAttempt, specSleepOnAttempt, hb]
        · exact ih entries rec h
    | ok failedIds cbRaises =>
      simp only [flushGo, hb] at hrec
      cases hos : cfg.on_success with
      | false =>
        simp [hos] at hrec
        split at hrec
        case isTrue hfe =>
          simp only [List.mem_singleton] at hrec
          subst hrec
          subst hfe
          simp [specCallbackOnAttempt, specSleepOnAttempt, hb, hos]
        case isFalse hfe =>
          rcases List.mem_cons.mp hrec with h | h
          · subst h
            simp [specCallbackOnAttempt, specSleepOnAttempt, hb, hos, hfe]
          · exact ih _ rec h
      | true =>
        cases hse : (attemptSucceeded entries failedIds).isEmpty with
        | true =>
          have hse' : attemptSucceeded entries failedIds = [] := by simpa using hse
          simp [hos, hse, hse'] at hrec
          split at hrec
          case isTrue hfe =>
            simp only [List.mem_singleton] at hrec
            subst hrec
            subst hfe
            simp [specCallbackOnAttempt, specSleepOnAttempt, hb, hos, hse']
          case isFalse hfe =>
            rcases List.mem_cons.mp hrec with h | h
            · subst h
              simp [specCallbackOnAttempt, specSleepOnAttempt, hb, hos, hse', hfe]
            · exact ih _ rec h
        | false =>
          have hse' : ¬attemptSucceeded entries failedIds = [] := by simpa using hse
          cases hcr : cbRaises with
          | true =>
            simp [hos, hse, hse', hcr] at hrec
            split at hrec
            case isTrue hlast =>
              simp only [List.mem_singleton] at hrec
              subst hrec
              simp [specCallbackOnAttempt, specSleepOnAttempt, hb, hos, hse', hcr]
            case isFalse hlast =>
              rcases List.mem_cons.mp hrec with h | h
              · subst h
                simp [specCallbackOnAttempt, specSleepOnAttempt, hb, hos, hse', hcr]
              · exact ih entries rec h
          | false =>
            simp [hos, hse, hse', hcr] at hrec
            split at hrec
            case isTrue hfe =>
              simp only [List.mem_singleton] at hrec
              subst hrec
              subst hfe
              simp [specCallbackOnAttempt, specSleepOnAttempt, hb, hos, hse', hcr]
            case isFalse hfe =>
              rcases List.mem_cons.mp hrec with h | h
              · subst h
                simp [specCallbackOnAttempt, specSleepOnAttempt, hb, hos, hse', hcr, hfe]
              · exact ih _ rec h

theorem flush_cases (cfg : Config) (script : Nat → AttemptBehavior) (st : BufferState) :
    (st.batch.isEmpty = true ∧ flush cfg script st = (st, ⟨[], false⟩)) ∨
    (st.batch.isEmpty = false ∧
      ∃ log, log = flushGo cfg script (List.range' 1 (cfg.max_retries + 1)) st.batch ∧
        flush cfg script st = (if log.raised then st else ⟨[], 0⟩, log)) := by
  by_cases hbe : st.batch.isEmpty = true
  · exact Or.inl ⟨hbe, by simp [flush, hbe]⟩
  · have hne : st.batch.isEmpty = false := by simpa using hbe
    refine Or.inr ⟨hne, _, rfl, ?_⟩
    simp only [flush, hne, Bool.false_eq_true, if_false]
    split <;> simp_all

theorem flush_snd_eq (cfg : Config) (script : Nat → AttemptBehavior) (st : BufferState)
    (hne : st.batch.isEmpty = false) :
    (flush cfg script st).2 =
      flushGo cfg script (List.range' 1 (cfg.max_retries + 1)) st.batch := by
  simp only [flush, hne, Bool.false_eq_true, if_false]
  split <;> rfl

/-- C1 (code_bug evaluation): with `max_retries = 0`, one pending message and a
transport that raises on the only attempt, `flush` propagates the error and the
pending batch is NOT cleared — `self._batch` still holds the message, so a
later `flush` would re-send it, contrary to the specified unconditional
clearing. -/
theorem flush_error_on_final_attempt_leaves_batch :
    (flush ⟨10, 1048576, 0, 1/2, false⟩ (fun _ => .err)
        ⟨[⟨"m1", "hello", []⟩], 5⟩).2.raised = true ∧
      (flush ⟨10, 1048576, 0, 1/2, false⟩ (fun _ => .err)
          ⟨[⟨"m1", "hello", []⟩], 5⟩).1.batch = [⟨"m1", "hello", []⟩] := by
  decide

/-- C4: one `flush` performs at most `max_retries + 1` transport attempts, for
every configuration, buffer state and transport behaviour (the loop iterates
over `range(1, max_retries + 2)` and each iteration makes exactly one
transport call). -/
theorem flush_attempt_count_le (cfg : Config) (script : Nat → AttemptBehavior)
    (st : BufferState) :
    (flush cfg script st).2.attempts.length ≤ cfg.max_retries + 1 := by
  simp only [flush]
  split
  · simp
  · split
    · simpa [List.length_range'] using
        flushGo_attempts_length_le cfg script (List.range' 1 (cfg.max_retries + 1)) st.batch
    · simpa [List.length_range'] using
        flushGo_attempts_length_le cfg script (List.range' 1 (cfg.max_retries + 1)) st.batch

/-- C8 (counterexample): construction with `max_retries = -1` and
`backoff_factor = -1` succeeds (`init_validate` returns `true`), although the
claim says any configuration with `max_retries < 0` or `backoff_factor < 0`
fails fast. -/
theorem init_accepts_negative_retries_and_backoff :
    init_validate 10 1048576 (-1) (-1) = true := by decide

/-- C8 (amended): construction fails fast exactly when `max_batch_count` is
outside `[1, 10]` or `max_batch_size_bytes` is outside `[1, 1048576]`;
`max_retries` and `backoff_factor` are stored without validation, so negative
values are accepted. -/
theorem init_validate_iff (c s r : Int) (b : ℚ) :
    init_validate c s r b = true ↔ (1 ≤ c ∧ c ≤ 10 ∧ 1 ≤ s ∧ s ≤ 1048576) := by
  simp [init_validate, MIN_BATCH_COUNT, MAX_BATCH_COUNT, MIN_BATCH_SIZE, MAX_BATCH_SIZE,
    and_assoc]

/-- C5 (counterexample): with `max_retries = 0` and `backoff_factor = 1`, a
structured response that reports the only entry failed makes `flush` perform
exactly one attempt — the final one — and still sleep for
`1 * 2 ^ 0 = 1` time units after it, so a pause does occur after the final
attempt, contrary to the claim. -/
theorem flush_sleeps_after_final_attempt :
    (flush ⟨10, 1048576, 0, 1, false⟩ (fun _ => .ok ["m1"] false)
        ⟨[⟨"m1", "a", []⟩], 1⟩).2.attempts.length = 1 ∧
      ((flush ⟨10, 1048576, 0, 1, false⟩ (fun _ => .ok ["m1"] false)
          ⟨[⟨"m1", "a", []⟩], 1⟩).2.attempts.filterMap AttemptRecord.sleptAfter).length =
        1 := by
  decide

/-- C5 (amended): during one `flush`, the pause recorded after attempt `idx`
is exactly `backoff_factor * 2 ^ (idx - 1)` and occurs exactly when that
attempt ended with a structured response (neither the transport nor an invoked
callback raised) leaving a non-empty failed subset — including when `idx` is
the final attempt; an attempt that raises is followed immediately with no
pause, and a fully successful attempt is followed by none. -/
theorem flush_sleep_characterization (cfg : Config) (script : Nat → AttemptBehavior)
    (st : BufferState) (rec : AttemptRecord)
    (hrec : rec ∈ (flush cfg script st).2.attempts) :
    rec.sleptAfter = specSleepOnAttempt cfg (script rec.idx) rec.sent rec.idx := by
  rcases flush_cases cfg script st with ⟨_, heq⟩ | ⟨_, log, hlog, heq⟩
  · rw [heq] at hrec
    simp at hrec
  · rw [heq] at hrec
    exact (flushGo_rec_spec cfg script _ st.batch rec (hlog ▸ hrec)).2

theorem flush_sleep_characterization_witness :
    ((⟨1, [⟨"m1", "a", []⟩], none, none⟩ : AttemptRecord) ∈
        (flush ⟨10, 1048576, 1, 1, false⟩ (fun _ => .err)
            ⟨[⟨"m1", "a", []⟩], 1⟩).2.attempts) ∧
      (⟨1, [⟨"m1", "a", []⟩], none, none⟩ : AttemptRecord).sleptAfter =
        specSleepOnAttempt ⟨10, 1048576, 1, 1, false⟩ .err [⟨"m1", "a", []⟩] 1 :=
  ⟨by decide,
    flush_sleep_characterization ⟨10, 1048576, 1, 1, false⟩ (fun _ => .err)
      ⟨[⟨"m1", "a", []⟩], 1⟩ ⟨1, [⟨"m1", "a", []⟩], none, none⟩ (by decide)⟩

/-- C6: on every attempt of a `flush` whose transport call returns a
structured response, `on_success` is invoked (exactly once, recorded in the
attempt's single `callbackCalled` field) with exactly the ids that succeeded
on that attempt — the ids of the entries sent on that attempt that the
response did not report failed — iff the callback is configured and that list
is non-empty; it is not invoked when the list is empty or when the transport
call raised. -/
theorem flush_callback_per_attempt (cfg : Config) (script : Nat → AttemptBehavior)
    (st : BufferState) (rec : AttemptRecord)
    (hrec : rec ∈ (flush cfg script st).2.attempts) :
    rec.callbackCalled = specCallbackOnAttempt cfg (script rec.idx) rec.sent := by
  rcases flush_cases cfg script st with ⟨_, heq⟩ | ⟨_, log, hlog, heq⟩
  · rw [heq] at hrec
    simp at hrec
  · rw [heq] at hrec
    exact (flushGo_rec_spec cfg script _ st.batch rec (hlog ▸ hrec)).1

theorem flush_callback_per_attempt_witness :
    ((flush ⟨10, 1048576, 1, 0, true⟩
          (fun a => if a = 1 then .ok ["x"] false else .ok [] false)
          ⟨[⟨"a", "p", []⟩, ⟨"x", "q", []⟩], 2⟩).2.attempts.filterMap
        AttemptRecord.callbackCalled = [["a"], ["x"]]) ∧
      ((⟨2, [⟨"x", "q", []⟩], some ["x"], none⟩ : AttemptRecord) ∈
        (flush ⟨10, 1048576, 1, 0, true⟩
            (fun a => if a = 1 then .ok ["x"] false else .ok [] false)
            ⟨[⟨"a", "p", []⟩, ⟨"x", "q", []⟩], 2⟩).2.attempts) ∧
      (⟨2, [⟨"x", "q", []⟩], some ["x"], none⟩ : AttemptRecord).callbackCalled =
        specCallbackOnAttempt ⟨10, 1048576, 1, 0, true⟩ (.ok [] false)
          [⟨"x", "q", []⟩] :=
  ⟨by decide, by decide,
    flush_callback_per_attempt ⟨10, 1048576, 1, 0, true⟩
      (fun a => if a = 1 then .ok ["x"] false else .ok [] false)
      ⟨[⟨"a", "p", []⟩, ⟨"x", "q", []⟩], 2⟩ ⟨2, [⟨"x", "q", []⟩], some ["x"], none⟩
      (by decide)⟩

/-- C7: when every attempt of a flush gets a structured response (no transport
error and no raising callback), `flush` returns normally — even when some
items are still reported failed on the final attempt — the buffer is cleared,
and no notification ever names an item that was reported failed on the attempt
the notification belongs to, so the remaining failed items get no success or
failure notification; only a raised error interrupts control flow and none can
occur here. -/
theorem flush_exhausted_failures_silent (cfg : Config) (script : Nat → AttemptBehavior)
    (st : BufferState) (hs : ∀ a, structuredNoRaise (script a) = true)
    (hb : st.batch ≠ []) :
    (flush cfg script st).2.raised = false ∧
      (flush cfg script st).1 = ⟨[], 0⟩ ∧
      ∀ rec ∈ (flush cfg script st).2.attempts, ∀ ids,
        rec.callbackCalled = some ids →
          ∀ fids cbR, script rec.idx = .ok fids cbR → ∀ i ∈ ids, i ∉ fids := by
  have hne : st.batch.isEmpty = false := by simpa using hb
  have hnr : (flushGo cfg script (List.range' 1 (cfg.max_retries + 1)) st.batch).raised =
      false := flushGo_not_raised_of_structured cfg script hs _ _
  have hsnd := flush_snd_eq cfg script st hne
  have hfst : (flush cfg script st).1 = ⟨[], 0⟩ := by
    rcases flush_cases cfg script st with ⟨h1, _⟩ | ⟨_, log, hlog, heq⟩
    · rw [hne] at h1
      exact absurd h1 (by simp)
    · rw [heq]
      subst hlog
      simp [hnr]
  refine ⟨by rw [hsnd]; exact hnr, hfst, ?_⟩
  intro rec hrec ids hcall fids cbR hscr i hi
  rw [hsnd] at hrec
  have hspec := (flushGo_rec_spec cfg script _ st.batch rec hrec).1
  rw [hcall, hscr] at hspec
  simp only [specCallbackOnAttempt] at hspec
  split at hspec
  case isTrue hcond =>
    have hids : ids = attemptSucceeded rec.sent fids := by simpa using hspec
    subst hids
    simp only [attemptSucceeded, List.mem_map] at hi
    obtain ⟨e, he, hid⟩ := hi
    rw [List.mem_filter] at he
    have hnotin := he.2
    simp at hnotin
    rwa [hid] at hnotin
  case isFalse hcond =>
    exact absurd hspec (by simp)

theorem flush_exhausted_failures_silent_witness :
    (⟨[⟨"m1", "a", []⟩], 1⟩ : BufferState).batch ≠ [] ∧
      (flush ⟨10, 1048576, 0, 0, true⟩ (fun _ => .ok ["m1"] false)
          ⟨[⟨"m1", "a", []⟩], 1⟩).2.raised = false ∧
      (flush ⟨10, 1048576, 0, 0, true⟩ (fun _ => .ok ["m1"] false)
          ⟨[⟨"m1", "a", []⟩], 1⟩).1 = ⟨[], 0⟩ ∧
      (flush ⟨10, 1048576, 0, 0, true⟩ (fun _ => .ok ["m1"] false)
          ⟨[⟨"m1", "a", []⟩], 1⟩).2.attempts.filterMap AttemptRecord.callbackCalled =
        [] :=
  ⟨by decide,
    (flush_exhausted_failures_silent ⟨10, 1048576, 0, 0, true⟩ (fun _ => .ok ["m1"] false)
      ⟨[⟨"m1", "a", []⟩], 1⟩ (fun a => rfl) (by decide)).1,
    (flush_exhausted_failures_silent ⟨10, 1048576, 0, 0, true⟩ (fun _ => .ok ["m1"] false)
      ⟨[⟨"m1", "a", []⟩], 1⟩ (fun a => rfl) (by decide)).2.1,
    by decide⟩

/-- C9: at scope exit, `__exit__` invokes `flush` exactly once when the
pending batch is non-empty (and that flush sends the pending batch on its
first transport attempt), invokes it zero times when the batch is empty, and
always returns `False`, so an error raised inside the scope is never
suppressed. -/
theorem exit_flushes_iff_nonempty (cfg : Config) (script : Nat → AttemptBehavior)
    (st : BufferState) :
    (exitBatcher cfg script st).2.2 = false ∧
      (st.batch = [] → (exitBatcher cfg script st).2.1 = []) ∧
      (st.batch ≠ [] →
        ∃ log, (exitBatcher cfg script st).2.1 = [log] ∧
          (log.attempts.head?).map AttemptRecord.sent = some st.batch) := by
  by_cases hb : st.batch = []
  · have hbe : st.batch.isEmpty = true := by simp [hb]
    exact ⟨by simp [exitBatcher, hbe], fun _ => by simp [exitBatcher, hbe],
      fun h => absurd hb h⟩
  · have hne : st.batch.isEmpty = false := by simpa using hb
    refine ⟨by simp [exitBatcher, hne], fun h => absurd h hb, fun _ => ?_⟩
    refine ⟨(flush cfg script st).2, by simp [exitBatcher, hne], ?_⟩
    rw [flush_snd_eq cfg script st hne]
    have hcons : List.range' 1 (cfg.max_retries + 1) = 1 :: List.range' 2 cfg.max_retries :=
      rfl
    rw [hcons]
    exact flushGo_head_sent cfg script 1 _ st.batch

theorem exit_flushes_iff_nonempty_witness :
    (⟨[⟨"m1", "a", []⟩], 1⟩ : BufferState).batch ≠ [] ∧
      ∃ log,
        (exitBatcher ⟨10, 1048576, 0, 1, false⟩ (fun _ => .ok [] false)
            ⟨[⟨"m1", "a", []⟩], 1⟩).2.1 = [log] ∧
          (log.attempts.head?).map AttemptRecord.sent = some [⟨"m1", "a", []⟩] :=
  ⟨by decide,
    (exit_flushes_iff_nonempty ⟨10, 1048576, 0, 1, false⟩ (fun _ => .ok [] false)
      ⟨[⟨"m1", "a", []⟩], 1⟩).2.2 (by decide)⟩

theorem flushGo_cons_cbraise (cfg : Config) (script : Nat → AttemptBehavior) (a : Nat)
    (rest : List Nat) (entries : List Entry) (fids : List String)
    (h1 : cfg.on_success = true) (h2 : script a = .ok fids true)
    (hse : (attemptSucceeded entries fids).isEmpty = false)
    (hlast : ¬(a = cfg.max_retries + 1)) :
    flushGo cfg script (a :: rest) entries =
      ⟨⟨a, entries, some (attemptSucceeded entries fids), none⟩ ::
          (flushGo cfg script rest entries).attempts,
        (flushGo cfg script rest entries).raised⟩ := by
  have hse' : ¬attemptSucceeded entries fids = [] := by simpa using hse
  simp [flushGo, h2, h1, hse', hlast]

theorem flushGo_cons_cbraise_last (cfg : Config) (script : Nat → AttemptBehavior) (a : Nat)
    (rest : List Nat) (entries : List Entry) (fids : List String)
    (h1 : cfg.on_success = true) (h2 : script a = .ok fids true)
    (hse : (attemptSucceeded entries fids).isEmpty = false)
    (hlast : a = cfg.max_retries + 1) :
    flushGo cfg script (a :: rest) entries =
      ⟨[⟨a, entries, some (attemptSucceeded entries fids), none⟩], true⟩ := by
  have hse' : ¬attemptSucceeded entries fids = [] := by simpa using hse
  subst hlast
  simp [flushGo, h2, h1, hse']

/-- C10: the `on_success` call sits inside the same `try` as the transport
call, so when the callback raises on attempt 1 of a flush (structured
response, callback configured, some ids succeeded): if another attempt is
permitted, the exception is swallowed — attempt 1's record shows the callback
invocation and no backoff pause — and attempt 2 re-sends the entire working
subset of attempt 1, including the entries whose ids the transport already
accepted (the subset is narrowed only after the callback runs); if attempt 1
is the last permitted attempt, the callback's exception propagates out of
`flush` and the buffer state is left unchanged. -/
theorem callback_raise_swallowed_and_resends (cfg : Config)
    (script : Nat → AttemptBehavior) (st : BufferState) (fids : List String)
    (h1 : cfg.on_success = true) (h2 : script 1 = .ok fids true)
    (h3 : st.batch ≠ []) (h4 : attemptSucceeded st.batch fids ≠ []) :
    (1 ≤ cfg.max_retries →
      (flush cfg script st).2.attempts.head? =
        some ⟨1, st.batch, some (attemptSucceeded st.batch fids), none⟩ ∧
      ((flush cfg script st).2.attempts.drop 1).head?.map AttemptRecord.sent =
        some st.batch) ∧
    (cfg.max_retries = 0 →
      (flush cfg script st).2.raised = true ∧ (flush cfg script st).1 = st) := by
  have hne : st.batch.isEmpty = false := by simpa using h3
  have hse : (attemptSucceeded st.batch fids).isEmpty = false := by simpa using h4
  have hsnd := flush_snd_eq cfg script st hne
  constructor
  · intro hmr
    have hlast : ¬((1 : Nat) = cfg.max_retries + 1) := by omega
    obtain ⟨m, hm⟩ : ∃ m, cfg.max_retries = m + 1 := ⟨cfg.max_retries - 1, by omega⟩
    rw [hsnd, hm]
    have hr : List.range' 1 (m + 1 + 1) = 1 :: 2 :: List.range' 3 m := rfl
    rw [hr]
    rw [flushGo_cons_cbraise cfg script 1 (2 :: List.range' 3 m) st.batch fids h1 h2 hse
      hlast]
    constructor
    · rfl
    · simpa using flushGo_head_sent cfg script 2 (List.range' 3 m) st.batch
  · intro hm0
    have hlast0 : (1 : Nat) = cfg.max_retries + 1 := by omega
    have hflushgo :
        flushGo cfg script (List.range' 1 (cfg.max_retries + 1)) st.batch =
          ⟨[⟨1, st.batch, some (attemptSucceeded st.batch fids), none⟩], true⟩ := by
      rw [hm0]
      have hr1 : List.range' 1 (0 + 1) = [1] := rfl
      rw [hr1]
      exact flushGo_cons_cbraise_last cfg script 1 [] st.batch fids h1 h2 hse hlast0
    refine ⟨by rw [hsnd, hflushgo], ?_⟩
    rcases flush_cases cfg script st with ⟨hc, _⟩ | ⟨_, log, hlog, heq⟩
    · rw [hne] at hc
      exact absurd hc (by simp)
    · rw [heq]
      subst hlog
      rw [hflushgo]
      rfl

theorem callback_raise_swallowed_and_resends_witness :
    (flush ⟨10, 1048576, 1, 0, true⟩
          (fun a => if a = 1 then .ok ["b"] true else .ok [] false)
          ⟨[⟨"a", "x", []⟩, ⟨"b", "y", []⟩], 2⟩).2.attempts.head? =
        some ⟨1, [⟨"a", "x", []⟩, ⟨"b", "y", []⟩], some ["a"], none⟩ ∧
      ((flush ⟨10, 1048576, 1, 0, true⟩
            (fun a => if a = 1 then .ok ["b"] true else .ok [] false)
            ⟨[⟨"a", "x", []⟩, ⟨"b", "y", []⟩], 2⟩).2.attempts.drop 1).head?.map
          AttemptRecord.sent = some [⟨"a", "x", []⟩, ⟨"b", "y", []⟩] :=
  (callback_raise_swallowed_and_resends ⟨10, 1048576, 1, 0, true⟩
      (fun a => if a = 1 then .ok ["b"] true else .ok [] false)
      ⟨[⟨"a", "x", []⟩, ⟨"b", "y", []⟩], 2⟩ ["b"] rfl rfl (by decide) (by decide)).1
    (by decide)

theorem add_message_ok_cases (cfg : Config) (script : Nat → AttemptBehavior)
    (st : BufferState) (body : String) (attributes : List (String × MsgAttr))
    (message_id : String) (st' : BufferState) (logs : List FlushLog)
    (h : add_message cfg script st body attributes message_id = .ok (st', logs)) :
    st' = ⟨[⟨message_id, body, attributes⟩],
        0 + estimate_message_size body attributes⟩ ∨
      (st.batch = [] ∧
        st' = ⟨[⟨message_id, body, attributes⟩],
          st.batch_size + estimate_message_size body attributes⟩) ∨
      (st.batch.length < cfg.max_batch_count ∧
        st.batch_size + estimate_message_size body attributes ≤
          cfg.max_batch_size_bytes ∧
        st' = ⟨st.batch ++ [⟨message_id, body, attributes⟩],
          st.batch_size + estimate_message_size body attributes⟩) := by
  simp only [add_message] at h
  split at h
  · exact absurd h (by simp)
  · split at h
    case isTrue htr =>
      split at h
      case isTrue hra => exact absurd h (by simp)
      case isFalse hra =>
        rcases flush_cases cfg script st with ⟨hbe, heq⟩ | ⟨hne, log, hlog, heq⟩
        · rw [heq] at h
          simp only [Except.ok.injEq, Prod.mk.injEq] at h
          have hb0 : st.batch = [] := by simpa using hbe
          refine Or.inr (Or.inl ⟨hb0, ?_⟩)
          rw [← h.1, hb0]
          simp
        · rw [heq] at h hra
          have hlr : log.raised = false := by simpa using hra
          rw [hlr] at h
          simp only [if_false, Bool.false_eq_true, Except.ok.injEq, Prod.mk.injEq] at h
          exact Or.inl h.1.symm
    case isFalse htr =>
      simp only [Except.ok.injEq, Prod.mk.injEq] at h
      rcases not_or.mp htr with ⟨hl, hs⟩
      refine Or.inr (Or.inr ⟨by omega, by omega, h.1.symm⟩)

theorem reachable_inv (cfg : Config) (st : BufferState) (h : Reachable cfg st) :
    st.batch_size = (st.batch.map entrySize).sum := by
  induction h with
  | init => rfl
  | step_add st script body attributes message_id st' logs hr heq ih =>
    rcases add_message_ok_cases cfg script st body attributes message_id st' logs heq with
      h1 | ⟨hb0, h1⟩ | ⟨_, _, h1⟩
    · subst h1
      simp [entrySize]
    · subst h1
      rw [hb0] at ih
      simp at ih
      simp [ih, entrySize]
    · subst h1
      simp [ih, entrySize]
  | step_flush st script hr ih =>
    rcases flush_cases cfg script st with ⟨_, heq⟩ | ⟨_, log, hlog, heq⟩
    · rw [heq]
      exact ih
    · rw [heq]
      dsimp only
      split
      · exact ih
      · rfl

/-- C3: the running size estimate `self._batch_size` equals the sum of the
per-item size estimates of the pending entries in every state reachable from
a fresh buffer by `add_message` calls that return normally and `flush` calls
(normal or error-propagating), against arbitrary transport behaviour. -/
theorem reachable_size_estimate_eq_sum (cfg : Config) (st : BufferState)
    (h : Reachable cfg st) :
    st.batch_size = (st.batch.map entrySize).sum :=
  reachable_inv cfg st h

theorem reachable_size_estimate_eq_sum_witness :
    Reachable ⟨10, 1048576, 3, 1/2, false⟩ ⟨[⟨"m1", "hi", []⟩], 2⟩ ∧
      (⟨[⟨"m1", "hi", []⟩], 2⟩ : BufferState).batch_size =
        (([⟨"m1", "hi", []⟩] : List Entry).map entrySize).sum :=
  ⟨Reachable.step_add ⟨[], 0⟩ (fun _ => .err) "hi" [] "m1" ⟨[⟨"m1", "hi", []⟩], 2⟩ []
      Reachable.init (by decide),
    reachable_size_estimate_eq_sum ⟨10, 1048576, 3, 1/2, false⟩ ⟨[⟨"m1", "hi", []⟩], 2⟩
      (Reachable.step_add ⟨[], 0⟩ (fun _ => .err) "hi" [] "m1" ⟨[⟨"m1", "hi", []⟩], 2⟩ []
        Reachable.init (by decide))⟩

/-- C2: after any `add_message` call that returns normally, on any reachable
buffer state under a valid configuration, the pending count is at most
`max_batch_count` and the running size estimate is at most
`max_batch_size_bytes` — except that a single entry whose own estimate exceeds
`max_batch_size_bytes` is accepted as the sole element of the buffer (no loop,
not dropped). -/
theorem add_message_threshold_inv (cfg : Config) (script : Nat → AttemptBehavior)
    (st : BufferState) (body : String) (attributes : List (String × MsgAttr))
    (message_id : String) (st' : BufferState) (logs : List FlushLog)
    (hcount : 1 ≤ cfg.max_batch_count) (hreach : Reachable cfg st)
    (h : add_message cfg script st body attributes message_id = .ok (st', logs)) :
    st'.batch.length ≤ cfg.max_batch_count ∧
      (st'.batch_size ≤ cfg.max_batch_size_bytes ∨
        ∃ e, st'.batch = [e] ∧ cfg.max_batch_size_bytes < entrySize e) := by
  rcases add_message_ok_cases cfg script st body attributes message_id st' logs h with
    h1 | ⟨hb0, h1⟩ | ⟨hlen, hsz, h1⟩
  · subst h1
    refine ⟨by simpa using hcount, ?_⟩
    by_cases hover : estimate_message_size body attributes ≤ cfg.max_batch_size_bytes
    · exact Or.inl (by simpa using hover)
    · refine Or.inr ⟨⟨message_id, body, attributes⟩, rfl, ?_⟩
      simp only [entrySize]
      omega
  · subst h1
    have h0 : st.batch_size = 0 := by
      have hinv := reachable_inv cfg st hreach
      rw [hb0] at hinv
      simpa using hinv
    refine ⟨by simpa using hcount, ?_⟩
    rw [h0]
    by_cases hover : estimate_message_size body attributes ≤ cfg.max_batch_size_bytes
    · exact Or.inl (by simpa using hover)
    · refine Or.inr ⟨⟨message_id, body, attributes⟩, rfl, ?_⟩
      simp only [entrySize]
      omega
  · subst h1
    refine ⟨?_, Or.inl (by simpa using hsz)⟩
    simp only [List.length_append, List.length_cons, List.length_nil]
    omega

theorem add_message_threshold_inv_witness :
    add_message ⟨10, 1048576, 3, 1/2, false⟩ (fun _ => .err) ⟨[], 0⟩ "hey" [] "m1" =
        .ok (⟨[⟨"m1", "hey", []⟩], 3⟩, []) ∧
      ((⟨[⟨"m1", "hey", []⟩], 3⟩ : BufferState).batch.length ≤ 10 ∧
        ((⟨[⟨"m1", "hey", []⟩], 3⟩ : BufferState).batch_size ≤ 1048576 ∨
          ∃ e, ([⟨"m1", "hey", []⟩] : List Entry) = [e] ∧ 1048576 < entrySize e)) :=
  ⟨by decide,
    add_message_threshold_inv ⟨10, 1048576, 3, 1/2, false⟩ (fun _ => .err) ⟨[], 0⟩
      "hey" [] "m1" ⟨[⟨"m1", "hey", []⟩], 3⟩ [] (by decide) Reachable.init (by decide)⟩
